import Mathlib

/-!
Shallow embedding of the point-cloud annotator backend (Go), covering the
cache-aside CRUD service (backend/internal/handler/handler.go), the Redis
cache (backend/internal/cache), the Postgres repository
(backend/internal/database) and the gateway proxy (backend/internal/gateway).

Modelling conventions:
* Go strings are Lean `String` (Go `len(s)` is `String.utf8ByteSize`,
  `utf8.RuneCountInString` is `String.length`).
* `float64` coordinate values are modelled as exact rationals `Rat`; the
  source performs no arithmetic on coordinates, only the validator's
  zero-value test and copying, so the embedding is exact.
* Timestamps are natural numbers; every `time.Now()` reading in the source
  is an explicit parameter, in source order, so distinct readings are
  distinct parameters.
* The Postgres table is a list of rows; SQL statements are modelled row by
  row. The Redis key space is an association list for the per-id keys
  (`annotation:<id>`) plus an optional aggregate entry (`annotations:all`),
  with a `down` flag modelling a failing Redis connection (every command
  errors); JSON round-tripping of well-formed records is assumed faithful.
-/

/-- Models Go struct `models.Annotation` (id, x, y, z, title, description,
created_at, updated_at). -/
structure Annot where
  id : String
  x : Rat
  y : Rat
  z : Rat
  title : String
  description : String
  createdAt : Nat
  updatedAt : Nat
deriving DecidableEq, Repr

/-- Models Go struct `models.CreateAnnotationRequest` after JSON decoding:
x, y, z tagged `binding:"required"`, title `binding:"required,max=256"`,
description `binding:"max=256"`. -/
structure CreateReq where
  x : Rat
  y : Rat
  z : Rat
  title : String
  description : String
deriving DecidableEq, Repr

/-- Models Go struct `models.UpdateAnnotationRequest`: every field is a
nilable pointer (`none` = field absent from the JSON body). -/
structure UpdateReq where
  x : Option Rat
  y : Option Rat
  z : Option Rat
  title : Option String
  description : Option String
deriving DecidableEq, Repr

/-- Models the HTTP response emitted by a handler method: a single record
under `data` (c.JSON with AnnotationResponse), a list under `data`
(AnnotationsResponse), an ErrorResponse carrying the machine code, or the
bodiless 204. Human-readable messages are not modelled (the spec declares
them unstable). -/
inductive Resp where
  | record (status : Nat) (a : Annot)
  | list (status : Nat) (l : List Annot)
  | err (status : Nat) (code : String)
  | noContent
deriving DecidableEq, Repr

/-- Models the `annotations` Postgres table: a multiset of rows kept in
insertion order. -/
structure DB where
  rows : List Annot
deriving DecidableEq, Repr

/-- Models the Redis key space seen by RedisCache: `entries` holds the
`annotation:<id>` keys (most recent write first), `allE` the
`annotations:all` aggregate key. `down = true` models a Redis connection
on which every command returns an error. -/
structure CacheSt where
  down : Bool
  entries : List (String × Annot)
  allE : Option (List Annot)
deriving DecidableEq, Repr

/-- Models the state owned by the handler role: the Postgres table and the
Redis key space. -/
structure SysSt where
  db : DB
  cache : CacheSt
deriving DecidableEq, Repr

/-- Models `RedisCache.Get` (cache.go): redis.Nil, transport errors and
unmarshal failures are all collapsed to a nil record with nil error, so
the caller observes only `Option Annot`. The never-errors behaviour itself
is stated over `redisGetReply` below. -/
def cGet (c : CacheSt) (id : String) : Option Annot :=
  if c.down then none
  else (c.entries.find? (fun p => p.1 == id)).map (fun p => p.2)

/-- Models `RedisCache.GetAll` (cache.go): `some l` is the found=true case,
`none` covers redis.Nil, transport errors and unmarshal failures (all
reported as found=false with nil error). -/
def cGetAll (c : CacheSt) : Option (List Annot) :=
  if c.down then none else c.allE

/-- Models `RedisCache.InvalidateAll` (cache.go): DEL of the aggregate key;
errors leave the key space unchanged. -/
def cInvalidateAll (c : CacheSt) : CacheSt :=
  if c.down then c else { c with allE := none }

/-- Models `RedisCache.Set` (cache.go): SET of the per-id key followed by
`InvalidateAll` of the aggregate key; on a SET error the method returns
before invalidating, so a down cache is left unchanged. -/
def cSet (c : CacheSt) (a : Annot) : CacheSt :=
  if c.down then c
  else cInvalidateAll { c with entries := (a.id, a) :: c.entries }

/-- Models `RedisCache.SetAll` (cache.go): SET of the aggregate key only. -/
def cSetAll (c : CacheSt) (l : List Annot) : CacheSt :=
  if c.down then c else { c with allE := some l }

/-- Models `RedisCache.Delete` (cache.go): DEL of the per-id key followed by
`InvalidateAll`; on a DEL error the method returns before invalidating. -/
def cDelete (c : CacheSt) (id : String) : CacheSt :=
  if c.down then c
  else cInvalidateAll { c with entries := c.entries.filter (fun p => !(p.1 == id)) }

/-- Models `PostgresRepository.GetByID` (database.go): `SELECT ... WHERE
id = $1` via QueryRow, i.e. the first matching row, pgx.ErrNoRows mapped
to a nil record. -/
def dbGetByID (db : DB) (id : String) : Option Annot :=
  db.rows.find? (fun r => r.id == id)

/-- Inserts `a` before the first row whose created_at is not larger,
giving the created_at-descending order of `ORDER BY created_at DESC`. -/
def insertByCreatedDesc (a : Annot) : List Annot → List Annot
  | [] => [a]
  | b :: t => if b.createdAt ≤ a.createdAt then a :: b :: t
              else b :: insertByCreatedDesc a t

/-- Models `PostgresRepository.GetAll` (database.go): every row, ordered by
created_at descending (ties in an order Postgres leaves unspecified). -/
def dbGetAll (db : DB) : List Annot :=
  db.rows.foldr insertByCreatedDesc []

/-- Models `PostgresRepository.Create` (database.go): the struct literal
reads `uuid.New().String()` (parameter `newId`) and `time.Now().UTC()`
twice, in field order CreatedAt then UpdatedAt (parameters `t1`, `t2`),
then INSERTs the row. -/
def dbCreate (db : DB) (req : CreateReq) (newId : String) (t1 t2 : Nat) :
    Annot × DB :=
  let a : Annot :=
    { id := newId, x := req.x, y := req.y, z := req.z,
      title := req.title, description := req.description,
      createdAt := t1, updatedAt := t2 }
  (a, ⟨db.rows ++ [a]⟩)

/-- Models the read-modify-write body of `PostgresRepository.Update`
(database.go): each non-nil request field overwrites the fetched row and
UpdatedAt is stamped with the `time.Now().UTC()` reading `now`. -/
def applyUpdate (req : UpdateReq) (ex : Annot) (now : Nat) : Annot :=
  { ex with
    x := req.x.getD ex.x,
    y := req.y.getD ex.y,
    z := req.z.getD ex.z,
    title := req.title.getD ex.title,
    description := req.description.getD ex.description,
    updatedAt := now }

/-- Models `PostgresRepository.Update` (database.go): GetByID, nil on a
miss (nil record, nil error), otherwise apply the present fields, stamp
updated_at and run `UPDATE ... WHERE id = $1` (every row with that id is
overwritten). -/
def dbUpdate (db : DB) (id : String) (req : UpdateReq) (now : Nat) :
    Option Annot × DB :=
  match dbGetByID db id with
  | none => (none, db)
  | some ex =>
    let upd := applyUpdate req ex now
    (some upd, ⟨db.rows.map (fun r => if r.id == id then upd else r)⟩)

/-- Models `PostgresRepository.Delete` (database.go): `DELETE ... WHERE
id = $1`; RowsAffected = 0 yields the sentinel error string
"annotation not found". -/
def dbDelete (db : DB) (id : String) : Except String DB :=
  if db.rows.any (fun r => r.id == id) then
    .ok ⟨db.rows.filter (fun r => !(r.id == id))⟩
  else
    .error "annotation not found"

/-- Models the go-playground validator pass run by `ShouldBindJSON` on a
CreateAnnotationRequest: `required` rejects the zero value of each field
(0.0 for the float64 coordinates, "" for title), `max=256` on a string
bounds its rune count. Returns true when binding fails. -/
def bindCreateFails (req : CreateReq) : Bool :=
  req.x == 0 || req.y == 0 || req.z == 0 ||
  req.title == "" || 256 < req.title.length ||
  256 < req.description.length

/-- Models the validator pass on an UpdateAnnotationRequest:
`omitempty,max=256` bounds the rune count of title and description when
the pointer is non-nil. Returns true when binding fails. -/
def bindUpdateFails (req : UpdateReq) : Bool :=
  (match req.title with | some t => 256 < t.length | none => false) ||
  (match req.description with | some d => 256 < d.length | none => false)

/-- Models `Handler.Create` (handler.go): bind+validate, the explicit
`len(req.Title) > 256` byte check, repo.Create (clock readings t1 then
t2), best-effort cache.Set, 201 with the record. -/
def handlerCreate (s : SysSt) (req : CreateReq) (newId : String)
    (t1 t2 : Nat) : Resp × SysSt :=
  if bindCreateFails req then (.err 400 "invalid_request", s)
  else if 256 < req.title.utf8ByteSize then (.err 400 "invalid_request", s)
  else
    let (a, db') := dbCreate s.db req newId t1 t2
    (.record 201 a, ⟨db', cSet s.cache a⟩)

/-- Models `Handler.GetAll` (handler.go): cache.GetAll first (hit iff
err == nil && found), else repo.GetAll, best-effort cache.SetAll, 200. -/
def handlerGetAll (s : SysSt) : Resp × SysSt :=
  match cGetAll s.cache with
  | some l => (.list 200 l, s)
  | none =>
    let l := dbGetAll s.db
    (.list 200 l, ⟨s.db, cSetAll s.cache l⟩)

/-- Models `Handler.GetByID` (handler.go): cache.Get first (hit iff
err == nil && record non-nil), else repo.GetByID, nil record mapped to
404 not_found, otherwise best-effort cache.Set and 200. -/
def handlerGetByID (s : SysSt) (id : String) : Resp × SysSt :=
  match cGet s.cache id with
  | some a => (.record 200 a, s)
  | none =>
    match dbGetByID s.db id with
    | none => (.err 404 "not_found", s)
    | some a => (.record 200 a, ⟨s.db, cSet s.cache a⟩)

/-- Models the explicit `req.Title != nil && len(*req.Title) > 256` byte
check of `Handler.Update` (handler.go). -/
def updateTitleBytesExceed (req : UpdateReq) : Bool :=
  match req.title with
  | some t => 256 < t.utf8ByteSize
  | none => false

/-- Models `Handler.Update` (handler.go): bind+validate, the explicit
`req.Title != nil && len(*req.Title) > 256` byte check, repo.Update (nil
record mapped to 404 not_found), best-effort cache.Set, 200. -/
def handlerUpdate (s : SysSt) (id : String) (req : UpdateReq) (now : Nat) :
    Resp × SysSt :=
  if bindUpdateFails req then (.err 400 "invalid_request", s)
  else if updateTitleBytesExceed req then
    (.err 400 "invalid_request", s)
  else
    match dbUpdate s.db id req now with
    | (none, db') => (.err 404 "not_found", ⟨db', s.cache⟩)
    | (some a, db') => (.record 200 a, ⟨db', cSet s.cache a⟩)

/-- Models `Handler.Delete` (handler.go): repo.Delete; the sentinel error
string "annotation not found" is mapped to 404 not_found, any other error
to 500 internal_error; on success best-effort cache.Delete and 204. -/
def handlerDelete (s : SysSt) (id : String) : Resp × SysSt :=
  match dbDelete s.db id with
  | .error e =>
    if e = "annotation not found" then (.err 404 "not_found", s)
    else (.err 500 "internal_error", s)
  | .ok db' => (.noContent, ⟨db', cDelete s.cache id⟩)

/-- Helper for `strContains`: does `needle` start at the head of `hay`? -/
def charsMatch : List Char → List Char → Bool
  | [], _ => true
  | _ :: _, [] => false
  | a :: as, b :: bs => a == b && charsMatch as bs

/-- Helper for `strContains`: does `needle` occur in `hay` at any offset? -/
def charsContain : List Char → List Char → Bool
  | [], needle => needle.isEmpty
  | h :: t, needle => charsMatch needle (h :: t) || charsContain t needle

/-- Models Go `strings.Contains(s, sub)`. -/
def strContains (s sub : String) : Bool :=
  charsContain s.data sub.data

/-- Models the outcome of `g.httpClient.Do(proxyReq)` in
`Gateway.proxyToHandler` (gateway.go): either an upstream response
(status, Content-Type, body) or a transport error carrying its
`err.Error()` text. -/
inductive DoOut where
  | success (status : Nat) (contentType : String) (body : String)
  | failure (msg : String)
deriving DecidableEq, Repr

/-- Models the gateway's reply to the client: the relayed upstream
response, or an ErrorResponse with a machine code. -/
inductive PResp where
  | passthrough (status : Nat) (contentType : String) (body : String)
  | errResp (status : Nat) (code : String)
deriving DecidableEq, Repr

/-- Models the fixed `http.Client{Timeout: 30 * time.Second}` of
`NewGateway` (gateway.go), in seconds. -/
def clientTimeoutSecs : Nat := 30

/-- Models the `err.Error()` text Go's http.Client produces when its fixed
Timeout expires before the upstream responds. -/
def goTimeoutMsg : String :=
  "context deadline exceeded (Client.Timeout exceeded while awaiting headers)"

/-- Models the failure classification of `Gateway.proxyToHandler`
(gateway.go): `urlOk` is whether `url.Parse(g.cfg.HandlerURL)` succeeded
(on failure the method replies 500 configuration_error before any
outbound call), `doOut` the outcome of `httpClient.Do`. A transport error
whose text contains "connection refused" is mapped to 503
service_unavailable, any other transport error to 502 proxy_error, and an
upstream response is relayed unchanged. The request-body/response-body
IO glue of the method is elided. -/
def proxyToHandler (urlOk : Bool) (doOut : DoOut) : PResp :=
  if !urlOk then .errResp 500 "configuration_error"
  else
    match doOut with
    | .failure msg =>
      if strContains msg "connection refused" then
        .errResp 503 "service_unavailable"
      else
        .errResp 502 "proxy_error"
    | .success st ct b => .passthrough st ct b

/-- Models what the Redis GET + json.Unmarshal pair inside
`RedisCache.Get` (cache.go) can yield: well-formed cached bytes, bytes
that fail to unmarshal, redis.Nil, or a transport error. -/
inductive RReply where
  | foundVal (a : Annot)
  | corrupt
  | nilReply
  | failed (msg : String)
deriving Repr

/-- Models `RedisCache.Get` (cache.go) branch by branch over the reply of
the underlying client: redis.Nil returns (nil, nil), a transport error is
logged and returns (nil, nil), an unmarshal failure is logged and returns
(nil, nil), and only well-formed cached bytes return the record. -/
def redisGetReply : RReply → Except String (Option Annot)
  | .nilReply => .ok none
  | .failed _ => .ok none
  | .corrupt => .ok none
  | .foundVal a => .ok (some a)

/-- Healthy, empty Redis key space. -/
def cache0 : CacheSt := ⟨false, [], none⟩

/-- Empty table, healthy empty cache. -/
def st0 : SysSt := ⟨⟨[]⟩, cache0⟩

/-- Concrete valid create request used as a fixture. -/
def reqPOI : CreateReq := ⟨1, 2, 3, "POI", ""⟩

/-- Record produced by `handlerCreate st0 reqPOI "3fa2" 0 1`. -/
def annPOI : Annot := ⟨"3fa2", 1, 2, 3, "POI", "", 0, 1⟩

/-- Concrete create request whose x coordinate is 0.0. -/
def reqZeroX : CreateReq := ⟨0, 1, 1, "POI", ""⟩

/-- Concrete stored record used as a fixture. -/
def ann1 : Annot := ⟨"a1", 1, 2, 3, "Old", "d", 10, 10⟩

/-- State holding exactly `ann1`, with a healthy empty cache. -/
def st1 : SysSt := ⟨⟨[ann1]⟩, cache0⟩

/-- Update request that only sets the title, to "X". -/
def updTitleX : UpdateReq := ⟨none, none, none, some "X", none⟩

/-- Update request with every field absent. -/
def emptyUpd : UpdateReq := ⟨none, none, none, none, none⟩

/-- Result of applying `updTitleX` to `ann1` at clock reading 20. -/
def annX : Annot := { ann1 with title := "X", updatedAt := 20 }

/-- State after `handlerUpdate st1 "a1" updTitleX 20`. -/
def stX : SysSt := ⟨⟨[annX]⟩, ⟨false, [("a1", annX)], none⟩⟩

/-- A 258-byte description of 129 two-byte characters (so 129 runes). -/
def longDesc : String := String.mk (List.replicate 129 '¢')

/-- A 257-byte title of 257 one-byte characters. -/
def longTitle : String := String.mk (List.replicate 257 'a')

/-- Cache state already holding `ann1` under its per-id key. -/
def cHit : CacheSt := ⟨false, [("a1", ann1)], none⟩

/-- Models the `err.Error()` text of a Go dial failure against a down
upstream: it contains "connection refused". -/
def connRefusedMsg : String :=
  "dial tcp 172.18.0.3:8081: connect: connection refused"

/-- Create request whose 257-byte, 257-rune title exceeds the bound. -/
def reqLongTitle : CreateReq := ⟨1, 1, 1, longTitle, ""⟩

/-- Update request setting the over-long title. -/
def updLongTitle : UpdateReq := ⟨none, none, none, some longTitle, none⟩

/-- Create request whose description has 257 runes (and 257 bytes). -/
def reqLongDescA : CreateReq := ⟨1, 1, 1, "T", longTitle⟩

/-- Update request setting a 257-rune description. -/
def updLongDescA : UpdateReq := ⟨none, none, none, none, some longTitle⟩

set_option maxRecDepth 8000

theorem mem_insertByCreatedDesc (a b : Annot) (l : List Annot) :
    b ∈ insertByCreatedDesc a l ↔ b = a ∨ b ∈ l := by
  induction l with
  | nil => simp [insertByCreatedDesc]
  | cons c t ih =>
    simp only [insertByCreatedDesc]
    split
    · simp [List.mem_cons]
    · simp only [List.mem_cons, ih]
      tauto

theorem mem_dbGetAll (db : DB) (b : Annot) :
    b ∈ dbGetAll db ↔ b ∈ db.rows := by
  unfold dbGetAll
  induction db.rows with
  | nil => simp
  | cons c t ih =>
    simp [List.foldr, mem_insertByCreatedDesc, ih]

theorem find?_map_replace (l : List Annot) (id : String) (b : Annot)
    (hb : b.id = id) :
    (l.map (fun r => if r.id == id then b else r)).find? (fun r => r.id == id) =
      (l.find? (fun r => r.id == id)).map (fun _ => b) := by
  induction l with
  | nil => simp
  | cons c t ih =>
    rw [List.map_cons]
    by_cases h : c.id = id
    · have hc : (if c.id == id then b else c) = b := if_pos (by simpa using h)
      rw [hc, List.find?_cons_of_pos _ (by simpa using hb),
        List.find?_cons_of_pos _ (by simpa using h)]
      simp
    · have hc : (if c.id == id then b else c) = c := if_neg (by simpa using h)
      rw [hc, List.find?_cons_of_neg _ (by simpa using h),
        List.find?_cons_of_neg _ (by simpa using h)]
      exact ih

theorem cGetAll_cSet (c : CacheSt) (a : Annot) :
    cGetAll (cSet c a) = none := by
  rcases c with ⟨d, e, aE⟩
  cases d <;> simp [cGetAll, cSet, cInvalidateAll]

/-- C1: after a successful Update whose request sets the title to `newT`,
the updated record carries `newT`, and every subsequent GetAll with no
intervening mutation returns a list whose entry for the updated id carries
`newT`: the aggregate cache entry was invalidated by the Update's
cache-set, never served stale. -/
theorem c1_update_invalidates_aggregate_list
    (s s₂ : SysSt) (id newT : String) (req : UpdateReq) (now : Nat) (a : Annot)
    (hT : req.title = some newT)
    (hU : handlerUpdate s id req now = (.record 200 a, s₂)) :
    a.title = newT ∧
    ∃ l s₃, handlerGetAll s₂ = (.list 200 l, s₃) ∧
      (∃ b ∈ l, b.id = id ∧ b.title = newT) ∧
      (∀ b ∈ l, b.id = id → b.title = newT) ∧
      handlerGetAll s₃ = (.list 200 l, s₃) := by
  unfold handlerUpdate at hU
  split at hU
  · simp at hU
  split at hU
  · simp at hU
  rcases hfind : dbGetByID s.db id with _ | ex
  · simp [dbUpdate, hfind] at hU
  simp only [dbUpdate, hfind] at hU
  rw [Prod.mk.injEq] at hU
  obtain ⟨hUa, hUs⟩ := hU
  rw [Resp.record.injEq] at hUa
  replace hUa := hUa.2
  have hexmem : ex ∈ s.db.rows := List.mem_of_find?_eq_some hfind
  have hexid : ex.id = id := by
    have := List.find?_some hfind
    simpa using this
  have haid : a.id = id := by
    rw [← hUa]; simpa [applyUpdate] using hexid
  have hatitle : a.title = newT := by
    rw [← hUa]; simp [applyUpdate, hT]
  refine ⟨hatitle, ?_⟩
  set f : Annot → Annot :=
    fun r => if r.id == id then applyUpdate req ex now else r with hf
  have hrows : s₂.db.rows = s.db.rows.map f := by
    rw [← hUs]
  have hcache : s₂.cache = cSet s.cache a := by
    rw [← hUs, hUa]
  refine ⟨dbGetAll s₂.db, ⟨s₂.db, cSetAll s₂.cache (dbGetAll s₂.db)⟩, ?_, ?_, ?_, ?_⟩
  · simp [handlerGetAll, hcache, cGetAll_cSet]
  · refine ⟨a, ?_, haid, hatitle⟩
    rw [mem_dbGetAll, hrows]
    have : f ex = a := by simp [hf, hexid, hUa]
    rw [← this]
    exact List.mem_map_of_mem f hexmem
  · intro b hb hbid
    rw [mem_dbGetAll, hrows] at hb
    obtain ⟨r, hr, hrb⟩ := List.mem_map.mp hb
    by_cases hrid : r.id = id
    · rw [← hrb]
      simp [hf, hrid, hUa, hatitle]
    · exfalso
      apply hrid
      rw [← hbid, ← hrb]
      simp [hf, hrid]
  · rw [hcache]
    rcases hcc : s.cache with ⟨d, e, aE⟩
    cases d <;>
      simp [handlerGetAll, cGetAll, cSetAll, cSet, cInvalidateAll]

/-- C1 witness: updating the title of the stored record to "X" and then
listing twice yields lists whose entry for the id carries "X". -/
theorem c1_witness :
    (updTitleX.title = some "X") ∧
    (handlerUpdate st1 "a1" updTitleX 20 = (.record 200 annX, stX)) ∧
    (annX.title = "X" ∧
      ∃ l s₃, handlerGetAll stX = (.list 200 l, s₃) ∧
        (∃ b ∈ l, b.id = "a1" ∧ b.title = "X") ∧
        (∀ b ∈ l, b.id = "a1" → b.title = "X") ∧
        handlerGetAll s₃ = (.list 200 l, s₃)) :=
  ⟨rfl, by decide,
    c1_update_invalidates_aggregate_list st1 stX "a1" "X" updTitleX 20 annX
      rfl (by decide)⟩

/-- C2 (against the claim): `PostgresRepository.Create` fills CreatedAt and
UpdatedAt from two separate `time.Now().UTC()` calls; when the clock
advances between the two reads (modelled readings 0 then 1) the returned
record has created_at ≠ updated_at. -/
theorem c2_create_clock_reads_diverge :
    (handlerCreate st0 reqPOI "3fa2" 0 1).1 = .record 201 annPOI ∧
    annPOI.createdAt ≠ annPOI.updatedAt := by
  exact ⟨by decide, by decide⟩

/-- C3 (against the claim): a create request whose x coordinate is 0.0,
with a valid non-empty 3-byte title, is rejected 400 invalid_request by
the validator's `required` tag (the float64 zero value counts as missing),
with no state change. -/
theorem c3_zero_coordinate_rejected :
    handlerCreate st0 reqZeroX "3fa2" 0 0 = (.err 400 "invalid_request", st0) ∧
    reqZeroX.x = 0 ∧ reqZeroX.title = "POI" ∧
    reqZeroX.title.utf8ByteSize ≤ 256 := by
  exact ⟨by decide, by decide, rfl, by decide⟩

/-- C4: deleting an id with no matching row yields 404 not_found (never
500 internal_error) and leaves the whole state — table and cache —
unchanged; the cache delete is never reached. -/
theorem c4_delete_missing_id_not_found
    (s : SysSt) (id : String)
    (h : ∀ r ∈ s.db.rows, r.id ≠ id) :
    handlerDelete s id = (.err 404 "not_found", s) := by
  have hany : s.db.rows.any (fun r => r.id == id) = false := by
    rw [List.any_eq_false]
    intro r hr
    simpa using h r hr
  simp [handlerDelete, dbDelete, hany]

/-- C4 witness: deleting the absent id "zz" from the one-row state. -/
theorem c4_witness :
    (∀ r ∈ st1.db.rows, r.id ≠ "zz") ∧
    handlerDelete st1 "zz" = (.err 404 "not_found", st1) :=
  ⟨by decide, c4_delete_missing_id_not_found st1 "zz" (by decide)⟩

/-- C5: the cache boundary absorbs every cache failure. First,
`RedisCache.Get` never surfaces an error, whatever the underlying client
replied (miss, transport error, corrupt bytes, value). Second, with the
Redis connection down (every command failing), each of the five CRUD
handlers produces the same response as with a healthy always-miss cache:
cache failures never fail a request, and the discarded set/setAll/delete
errors are invisible in the response. -/
theorem c5_cache_failures_absorbed :
    (∀ r : RReply, ∃ v, redisGetReply r = .ok v) ∧
    (∀ (db : DB) (e : List (String × Annot)) (aE : Option (List Annot))
        (id : String),
      (handlerGetByID ⟨db, ⟨true, e, aE⟩⟩ id).1 =
        (handlerGetByID ⟨db, cache0⟩ id).1) ∧
    (∀ (db : DB) (e : List (String × Annot)) (aE : Option (List Annot)),
      (handlerGetAll ⟨db, ⟨true, e, aE⟩⟩).1 = (handlerGetAll ⟨db, cache0⟩).1) ∧
    (∀ (db : DB) (e : List (String × Annot)) (aE : Option (List Annot))
        (req : CreateReq) (newId : String) (t1 t2 : Nat),
      (handlerCreate ⟨db, ⟨true, e, aE⟩⟩ req newId t1 t2).1 =
        (handlerCreate ⟨db, cache0⟩ req newId t1 t2).1) ∧
    (∀ (db : DB) (e : List (String × Annot)) (aE : Option (List Annot))
        (id : String) (req : UpdateReq) (now : Nat),
      (handlerUpdate ⟨db, ⟨true, e, aE⟩⟩ id req now).1 =
        (handlerUpdate ⟨db, cache0⟩ id req now).1) ∧
    (∀ (db : DB) (e : List (String × Annot)) (aE : Option (List Annot))
        (id : String),
      (handlerDelete ⟨db, ⟨true, e, aE⟩⟩ id).1 =
        (handlerDelete ⟨db, cache0⟩ id).1) := by
  refine ⟨?_, ?_, ?_, ?_, ?_, ?_⟩
  · intro r
    cases r <;> exact ⟨_, rfl⟩
  · intro db e aE id
    cases hdb : dbGetByID db id <;>
      simp [handlerGetByID, cGet, cache0, hdb]
  · intro db e aE
    simp [handlerGetAll, cGetAll, cache0]
  · intro db e aE req newId t1 t2
    by_cases h1 : bindCreateFails req <;>
      by_cases h2 : 256 < req.title.utf8ByteSize <;>
        simp [handlerCreate, h1, h2]
  · intro db e aE id req now
    by_cases h1 : bindUpdateFails req <;>
      by_cases h2 : updateTitleBytesExceed req <;>
        rcases hdb : dbUpdate db id req now with ⟨_ | a, db2⟩ <;>
          simp [handlerUpdate, h1, h2, hdb]
  · intro db e aE id
    cases hdb : dbDelete db id with
    | error msg =>
      by_cases hm : msg = "annotation not found" <;>
        simp [handlerDelete, hdb, hm]
    | ok db2 => simp [handlerDelete, hdb]

/-- C6: GetByID consults the cache first: a cache hit is returned as-is
with the whole state untouched, for any table contents (the store is never
consulted); on a cache miss with a store hit the record comes from the
table; on a cache miss with a store miss the reply is 404 not_found, not
an internal error. -/
theorem c6_getbyid_cache_aside :
    (∀ (db : DB) (c : CacheSt) (id : String) (a : Annot),
      cGet c id = some a →
      handlerGetByID ⟨db, c⟩ id = (.record 200 a, ⟨db, c⟩)) ∧
    (∀ (db : DB) (c : CacheSt) (id : String) (a : Annot),
      cGet c id = none → dbGetByID db id = some a →
      handlerGetByID ⟨db, c⟩ id = (.record 200 a, ⟨db, cSet c a⟩)) ∧
    (∀ (db : DB) (c : CacheSt) (id : String),
      cGet c id = none → dbGetByID db id = none →
      handlerGetByID ⟨db, c⟩ id = (.err 404 "not_found", ⟨db, c⟩)) := by
  refine ⟨?_, ?_, ?_⟩
  · intro db c id a hc
    simp [handlerGetByID, hc]
  · intro db c id a hc hdb
    simp [handlerGetByID, hc, hdb]
  · intro db c id hc hdb
    simp [handlerGetByID, hc, hdb]

/-- C6 witness: a cached record is served against an empty table; the
cache-missed id "a1" is served from the one-row table; the absent id "zz"
yields 404 not_found. -/
theorem c6_witness :
    (cGet cHit "a1" = some ann1 ∧
      handlerGetByID ⟨⟨[]⟩, cHit⟩ "a1" = (.record 200 ann1, ⟨⟨[]⟩, cHit⟩)) ∧
    (cGet cache0 "a1" = none ∧ dbGetByID st1.db "a1" = some ann1 ∧
      handlerGetByID st1 "a1" = (.record 200 ann1, ⟨st1.db, cSet cache0 ann1⟩)) ∧
    (cGet cache0 "zz" = none ∧ dbGetByID st1.db "zz" = none ∧
      handlerGetByID st1 "zz" = (.err 404 "not_found", st1)) :=
  ⟨⟨by decide, c6_getbyid_cache_aside.1 ⟨[]⟩ cHit "a1" ann1 (by decide)⟩,
   ⟨by decide, by decide,
     c6_getbyid_cache_aside.2.1 st1.db cache0 "a1" ann1 (by decide) (by decide)⟩,
   ⟨by decide, by decide,
     c6_getbyid_cache_aside.2.2 st1.db cache0 "zz" (by decide) (by decide)⟩⟩

/-- C7: the gateway's failure classification: a malformed upstream URL is
answered 500 configuration_error whatever the outbound call would have
returned (the call is never attempted); a transport error whose text
contains "connection refused" is answered 503 service_unavailable; any
other transport error — in particular the expiry of the fixed 30-second
client timeout, whose Go error text does not contain "connection
refused" — is answered 502 proxy_error. -/
theorem c7_proxy_failure_classes :
    (∀ d : DoOut, proxyToHandler false d = .errResp 500 "configuration_error") ∧
    (∀ msg : String, strContains msg "connection refused" = true →
      proxyToHandler true (.failure msg) = .errResp 503 "service_unavailable") ∧
    (∀ msg : String, strContains msg "connection refused" = false →
      proxyToHandler true (.failure msg) = .errResp 502 "proxy_error") ∧
    strContains goTimeoutMsg "connection refused" = false ∧
    clientTimeoutSecs = 30 := by
  refine ⟨fun d => rfl, ?_, ?_, by decide, rfl⟩
  · intro msg h
    simp [proxyToHandler, h]
  · intro msg h
    simp [proxyToHandler, h]

/-- C7 witness: a dial error carrying "connection refused" gets 503, the
client-timeout error text gets 502, and with a malformed upstream URL the
dial error is never consulted and 500 configuration_error is returned. -/
theorem c7_witness :
    (strContains connRefusedMsg "connection refused" = true) ∧
    (proxyToHandler true (.failure connRefusedMsg) =
      .errResp 503 "service_unavailable") ∧
    (strContains goTimeoutMsg "connection refused" = false) ∧
    (proxyToHandler true (.failure goTimeoutMsg) = .errResp 502 "proxy_error") ∧
    (proxyToHandler false (.failure connRefusedMsg) =
      .errResp 500 "configuration_error") :=
  ⟨by decide, c7_proxy_failure_classes.2.1 connRefusedMsg (by decide),
   by decide, c7_proxy_failure_classes.2.2.1 goTimeoutMsg (by decide),
   c7_proxy_failure_classes.1 (.failure connRefusedMsg)⟩

/-- C8 counterexample: the 258-byte description `longDesc` (129 two-byte
runes) exceeds the 256-byte bound yet is accepted by both Create (201)
and Update (200): the validator's max=256 counts runes, and no explicit
byte check exists for description, so the claim's byte-length rejection
does not hold for description. -/
theorem c8_description_byte_bound_cex :
    256 < longDesc.utf8ByteSize ∧
    longDesc.length ≤ 256 ∧
    (handlerCreate st0 ⟨1, 1, 1, "T", longDesc⟩ "3fa2" 0 0).1 =
      .record 201 ⟨"3fa2", 1, 1, 1, "T", longDesc, 0, 0⟩ ∧
    (handlerUpdate st1 "a1" ⟨none, none, none, none, some longDesc⟩ 20).1 =
      .record 200 { ann1 with description := longDesc, updatedAt := 20 } := by
  exact ⟨by decide, by decide, by decide, by decide⟩

/-- C8 amended: the 256-byte bound on title is enforced identically on
Create and Update — any title over 256 bytes is rejected 400
invalid_request with no state change, before any store or cache
operation; description is bounded identically on both paths too, but by
rune count (≤ 256 runes), not byte length. -/
theorem c8_length_bounds_amended :
    (∀ (s : SysSt) (req : CreateReq) (newId : String) (t1 t2 : Nat),
      256 < req.title.utf8ByteSize →
      handlerCreate s req newId t1 t2 = (.err 400 "invalid_request", s)) ∧
    (∀ (s : SysSt) (id : String) (req : UpdateReq) (t : String) (now : Nat),
      req.title = some t → 256 < t.utf8ByteSize →
      handlerUpdate s id req now = (.err 400 "invalid_request", s)) ∧
    (∀ (s : SysSt) (req : CreateReq) (newId : String) (t1 t2 : Nat),
      256 < req.description.length →
      handlerCreate s req newId t1 t2 = (.err 400 "invalid_request", s)) ∧
    (∀ (s : SysSt) (id : String) (req : UpdateReq) (d : String) (now : Nat),
      req.description = some d → 256 < d.length →
      handlerUpdate s id req now = (.err 400 "invalid_request", s)) := by
  refine ⟨?_, ?_, ?_, ?_⟩
  · intro s req newId t1 t2 h
    by_cases hb : bindCreateFails req
    · simp [handlerCreate, hb]
    · simp [handlerCreate, hb, h]
  · intro s id req t now ht h
    by_cases hb : bindUpdateFails req
    · simp [handlerUpdate, hb]
    · have hx : updateTitleBytesExceed req = true := by
        simp [updateTitleBytesExceed, ht, h]
      simp [handlerUpdate, hb, hx]
  · intro s req newId t1 t2 h
    have hb : bindCreateFails req = true := by
      simp [bindCreateFails]
      tauto
    simp [handlerCreate, hb]
  · intro s id req d now hd h
    have hb : bindUpdateFails req = true := by
      simp [bindUpdateFails, hd, h]
    simp [handlerUpdate, hb]

/-- C8 witness: the 257-byte ASCII title is rejected 400 invalid_request,
with no state change, by both Create and Update, and a 257-rune
description is likewise rejected by both paths. -/
theorem c8_witness :
    (256 < longTitle.utf8ByteSize) ∧
    (handlerCreate st0 reqLongTitle "3fa2" 0 0 =
      (.err 400 "invalid_request", st0)) ∧
    (updLongTitle.title = some longTitle ∧
      handlerUpdate st1 "a1" updLongTitle 20 =
        (.err 400 "invalid_request", st1)) ∧
    (256 < longTitle.length) ∧
    (handlerCreate st0 reqLongDescA "3fa2" 0 0 =
      (.err 400 "invalid_request", st0)) ∧
    (updLongDescA.description = some longTitle ∧
      handlerUpdate st1 "a1" updLongDescA 20 =
        (.err 400 "invalid_request", st1)) :=
  ⟨by decide,
   c8_length_bounds_amended.1 st0 reqLongTitle "3fa2" 0 0 (by decide),
   ⟨rfl, c8_length_bounds_amended.2.1 st1 "a1" updLongTitle longTitle 20
     rfl (by decide)⟩,
   by decide,
   c8_length_bounds_amended.2.2.1 st0 reqLongDescA "3fa2" 0 0 (by decide),
   ⟨rfl, c8_length_bounds_amended.2.2.2 st1 "a1" updLongDescA longTitle 20
     rfl (by decide)⟩⟩

/-- C9: a GetByID served from the table (cache miss, store hit) on a
healthy cache repopulates the per-id entry through the cache's set, and
that set drops the aggregate entry as a side effect: the pure read leaves
the cached list invalidated. -/
theorem c9_store_read_drops_aggregate
    (s : SysSt) (id : String) (a : Annot)
    (hdown : s.cache.down = false)
    (hc : cGet s.cache id = none)
    (hdb : dbGetByID s.db id = some a) :
    handlerGetByID s id = (.record 200 a, ⟨s.db, cSet s.cache a⟩) ∧
    (cSet s.cache a).allE = none ∧
    cGet (cSet s.cache a) id = some a := by
  have haid : a.id = id := by
    simpa using List.find?_some hdb
  refine ⟨?_, ?_, ?_⟩
  · simp [handlerGetByID, hc, hdb]
  · simp [cSet, cInvalidateAll, hdown]
  · simp [cGet, cSet, cInvalidateAll, hdown, haid]

/-- C9 witness: reading "a1" against an empty healthy cache and the
one-row table caches the record and leaves the aggregate entry dropped. -/
theorem c9_witness :
    (st1.cache.down = false ∧ cGet st1.cache "a1" = none ∧
      dbGetByID st1.db "a1" = some ann1) ∧
    (handlerGetByID st1 "a1" = (.record 200 ann1, ⟨st1.db, cSet st1.cache ann1⟩) ∧
      (cSet st1.cache ann1).allE = none ∧
      cGet (cSet st1.cache ann1) "a1" = some ann1) :=
  ⟨⟨rfl, by decide, by decide⟩,
   c9_store_read_drops_aggregate st1 "a1" ann1 rfl (by decide) (by decide)⟩

/-- C10: an Update whose request has every field absent, on a stored id,
succeeds with 200 (neither rejected nor 404), returns the stored record
with only updated_at changed — stamped with the current clock reading —
and persists exactly that record in the table. -/
theorem c10_noop_update_bumps_updatedAt
    (s : SysSt) (id : String) (a : Annot) (now : Nat)
    (hdb : dbGetByID s.db id = some a) :
    handlerUpdate s id emptyUpd now =
      (.record 200 { a with updatedAt := now },
        ⟨⟨s.db.rows.map
            (fun r => if r.id == id then { a with updatedAt := now } else r)⟩,
          cSet s.cache { a with updatedAt := now }⟩) ∧
    dbGetByID
        ⟨s.db.rows.map
          (fun r => if r.id == id then { a with updatedAt := now } else r)⟩
        id = some { a with updatedAt := now } := by
  have haid : a.id = id := by
    simpa using List.find?_some hdb
  have happ : applyUpdate emptyUpd a now = { a with updatedAt := now } := by
    simp [applyUpdate, emptyUpd]
  have hbind : bindUpdateFails emptyUpd = false := rfl
  have hbytes : updateTitleBytesExceed emptyUpd = false := rfl
  constructor
  · simp [handlerUpdate, hbind, hbytes, dbUpdate, hdb, happ]
  · show (_ : List Annot).find? _ = _
    rw [find?_map_replace _ _ _ (by simpa using haid)]
    rw [dbGetByID] at hdb
    rw [hdb]
    rfl

/-- C10 witness: the all-fields-absent update of the stored record at
clock reading 42 returns and persists the record unchanged except for
updated_at = 42. -/
theorem c10_witness :
    (dbGetByID st1.db "a1" = some ann1) ∧
    (handlerUpdate st1 "a1" emptyUpd 42 =
      (.record 200 { ann1 with updatedAt := 42 },
        ⟨⟨st1.db.rows.map
            (fun r => if r.id == "a1" then { ann1 with updatedAt := 42 } else r)⟩,
          cSet st1.cache { ann1 with updatedAt := 42 }⟩) ∧
    dbGetByID
        ⟨st1.db.rows.map
          (fun r => if r.id == "a1" then { ann1 with updatedAt := 42 } else r)⟩
        "a1" = some { ann1 with updatedAt := 42 }) :=
  ⟨by decide, c10_noop_update_bumps_updatedAt st1 "a1" ann1 42 (by decide)⟩
